import Mathlib

/-!
Verification of the two command-line tools in this repository against their
specification: ConfigLookup (src/read_config.py) and ExportScanner
(src/scanner.py).  The Python code is shallowly embedded: the regular
expressions of scanner.py are embedded as executable matchers over `List Char`
that reproduce the leftmost-match / greedy-with-backtracking semantics of
Python's `re` module (with `re.MULTILINE`) on the two concrete patterns used by
the program, and the process behaviour (stdout lines, exit code, file effects)
is made explicit.
-/

namespace DllScan

/-- Python whitespace class `\s` restricted to ASCII (space, tab, newline,
carriage return, vertical tab, form feed); the repository's inputs are ASCII
source text. -/
def isPySpace (c : Char) : Bool :=
  c = ' ' || c = '\t' || c = '\n' || c = '\r' || c = '\x0b' || c = '\x0c'

/-- Python word-character class `\w` restricted to ASCII: letters, digits and
underscore. -/
def isWordChar (c : Char) : Bool :=
  ('a' ≤ c && c ≤ 'z') || ('A' ≤ c && c ≤ 'Z') || ('0' ≤ c && c ≤ '9') || c = '_'

/-- Character class `[\w\s*]` of the return-type capture group in
scanner.py's `func_pattern`. -/
def isG1Char (c : Char) : Bool :=
  isWordChar c || isPySpace c || c = '*'

/-- Python `str.strip()`: remove leading and trailing whitespace. -/
def pyStrip (l : List Char) : List Char :=
  ((l.dropWhile isPySpace).reverse.dropWhile isPySpace).reverse

/-- Match a literal character sequence (first argument) at the front of the
text, returning the remainder on success. -/
def dropLit : List Char → List Char → Option (List Char)
  | [], s => some s
  | _ :: _, [] => none
  | p :: ps, c :: cs => if c = p then dropLit ps cs else none

/-! ## JSON values and their textual representations -/

/-- Decoded JSON value as produced by Python's `json.load`.  Numbers are
modelled as integers (the configuration values exercised by both tools and by
the specification's scenarios are integers). -/
inductive JsonVal where
  | null
  | bool (b : Bool)
  | num (n : Int)
  | str (s : String)
  | arr (items : List JsonVal)
  | obj (fields : List (String × JsonVal))

/-- Join a list of strings with the separator `", "`. -/
def joinComma : List String → String
  | [] => ""
  | [s] => s
  | s :: rest => s ++ ", " ++ joinComma rest

mutual

/-- Python `repr` of a decoded JSON value (string escaping inside quotes is
not modelled; the quote character itself is faithful: Python uses single
quotes). -/
def pyRepr : JsonVal → String
  | .null => "None"
  | .bool true => "True"
  | .bool false => "False"
  | .num n => toString n
  | .str s => "\x27" ++ s ++ "\x27"
  | .arr xs => "[" ++ joinComma (pyReprList xs) ++ "]"
  | .obj kvs => "\x7b" ++ joinComma (pyReprKVs kvs) ++ "\x7d"

/-- Python `repr` of each element of a list of JSON values. -/
def pyReprList : List JsonVal → List String
  | [] => []
  | v :: vs => pyRepr v :: pyReprList vs

/-- Python `repr` of each `key: value` entry of a JSON object. -/
def pyReprKVs : List (String × JsonVal) → List String
  | [] => []
  | (k, v) :: kvs => ("\x27" ++ k ++ "\x27: " ++ pyRepr v) :: pyReprKVs kvs

end

/-- Python `str` of a decoded JSON value: this is exactly what
`print(config[label])` in src/read_config.py writes (strings print bare,
every other value prints as its `repr`). -/
def pyStr : JsonVal → String
  | .str s => s
  | v => pyRepr v

mutual

/-- Spec-side definition, following the specification's words: the "native
JSON text representation" of a value, i.e. its JSON serialization (with the
default `", "` and `": "` separators; string escaping is not modelled). -/
def jsonText : JsonVal → String
  | .null => "null"
  | .bool true => "true"
  | .bool false => "false"
  | .num n => toString n
  | .str s => "\"" ++ s ++ "\""
  | .arr xs => "[" ++ joinComma (jsonTextList xs) ++ "]"
  | .obj kvs => "\x7b" ++ joinComma (jsonTextKVs kvs) ++ "\x7d"

/-- JSON serialization of each element of a list of JSON values. -/
def jsonTextList : List JsonVal → List String
  | [] => []
  | v :: vs => jsonText v :: jsonTextList vs

/-- JSON serialization of each `key: value` entry of a JSON object. -/
def jsonTextKVs : List (String × JsonVal) → List String
  | [] => []
  | (k, v) :: kvs => ("\"" ++ k ++ "\": " ++ jsonText v) :: jsonTextKVs kvs

end

/-! ## ConfigLookup (src/read_config.py) -/

/-- Dictionary key lookup (`label in config` / `config[label]`).  A decoded
JSON object has pairwise-distinct keys, so first-match lookup in the
association list is dictionary lookup. -/
def lookupKey : List (String × JsonVal) → String → Option JsonVal
  | [], _ => none
  | (k, v) :: rest, l => if l = k then some v else lookupKey rest l

/-- Embedding of the label loop of src/read_config.py (lines 9-14), given an
already-decoded configuration object.  Both branches of the first iteration
call `sys.exit`, so the result is determined by the first label alone; with no
labels the loop body never runs and the script falls off the end (exit 0).
Returns the list of lines printed to standard output and the exit code. -/
def configRun (config : List (String × JsonVal)) (labels : List String) :
    List String × Nat :=
  match labels with
  | [] => ([], 0)
  | label :: _ =>
    match lookupKey config label with
    | some v => ([pyStr v], 0)
    | none => ([], 1)

/-! ## ExportScanner (src/scanner.py): the two regular expressions

`macro_pattern` is `^\s*#define\s+(\w+)\s+__declspec\s*\(\s*dllexport\s*\)`
with `re.MULTILINE`, used with `search` (leftmost match; `^` matches at the
start of the text and after each newline).  All adjacent subpatterns have
disjoint character classes, so greedy maximal-munch matching is exact.
-/

/-- Attempt to match `macro_pattern` at one `^` position; on success return
the captured macro identifier (group 1). -/
def matchMacroAt (s : List Char) : Option (List Char) :=
  match dropLit "#define".data (s.dropWhile isPySpace) with
  | none => none
  | some s2 =>
    match s2 with
    | [] => none
    | c :: s3 =>
      if isPySpace c then
        let s4 := s3.dropWhile isPySpace
        let nm := s4.takeWhile isWordChar
        if nm = [] then none else
        match s4.dropWhile isWordChar with
        | [] => none
        | d :: s6 =>
          if isPySpace d then
            match dropLit "__declspec".data (s6.dropWhile isPySpace) with
            | none => none
            | some s8 =>
              match s8.dropWhile isPySpace with
              | '(' :: s10 =>
                match dropLit "dllexport".data (s10.dropWhile isPySpace) with
                | none => none
                | some s12 =>
                  match s12.dropWhile isPySpace with
                  | ')' :: _ => some nm
                  | _ => none
              | _ => none
          else none
      else none

/-- Scan the remaining text for `^` positions after a newline and try
`matchMacroAt` at each, left to right. -/
def macroSearchGo : List Char → Option (List Char)
  | [] => none
  | c :: rest =>
    if c = '\n' then
      match matchMacroAt rest with
      | some nm => some nm
      | none => macroSearchGo rest
    else macroSearchGo rest

/-- Embedding of `macro_pattern.search(source_code)` (scanner.py lines 21-27):
the first `^` position (start of text, then after each newline) where the
macro pattern matches; returns the captured macro name. -/
def macroSearch (s : List Char) : Option (List Char) :=
  match matchMacroAt s with
  | some nm => some nm
  | none => macroSearchGo s

/-- One discovered exported function: the dict appended in scanner.py
lines 42-46 (`name`, `return_type`, `args`). -/
structure ExportRec where
  name : String
  return_type : String
  args : String
deriving DecidableEq

/-- Final stage of the tail of `func_pattern`: the literal `)`, then `\s*`,
then the literal `{`.  Passes the already-captured name and argument text
through unchanged. -/
def matchTailClose (nm ar s6 : List Char) :
    Option (List Char × List Char × List Char) :=
  match s6 with
  | ')' :: s7 =>
    match s7.dropWhile isPySpace with
    | '\x7b' :: s8 => some (nm, ar, s8)
    | _ => none
  | _ => none

/-- Paren stage of the tail of `func_pattern`: the literal `(`, then the
argument capture `([^)]*)` (maximal munch is exact: the class excludes only
`)` and the next pattern token is the literal `)`). -/
def matchTailParen (nm s4 : List Char) :
    Option (List Char × List Char × List Char) :=
  match s4 with
  | '(' :: s5 =>
    matchTailClose nm (s5.takeWhile (fun d => !(d = ')')))
      (s5.dropWhile (fun d => !(d = ')')))
  | _ => none

/-- Name stage of the tail of `func_pattern`: the capture `(\w+)` followed by
`\s*` (all classes disjoint from their neighbours, so maximal munch is
exact). -/
def matchTailName (s2 : List Char) :
    Option (List Char × List Char × List Char) :=
  if s2.takeWhile isWordChar = [] then none
  else
    matchTailParen (s2.takeWhile isWordChar)
      ((s2.dropWhile isWordChar).dropWhile isPySpace)

/-- Match the tail `\s+(\w+)\s*\(([^)]*)\)\s*\{` of `func_pattern` after the
return-type group.  Returns the function name, the raw argument text, and the
remaining text after the brace. -/
def matchTail (s : List Char) : Option (List Char × List Char × List Char) :=
  match s with
  | [] => none
  | c :: rest =>
    if isPySpace c then matchTailName (rest.dropWhile isPySpace) else none

/-- Backtracking over the right boundary of the greedy return-type group
`([\w\s*]+)`: try the group at length `n` first (the regex engine prefers the
longest), then shorter.  `run` is the maximal `[\w\s*]` run, `tail0` the text
after it. -/
def tryLens (run tail0 : List Char) : Nat → Option (ExportRec × List Char)
  | 0 => none
  | n + 1 =>
    match matchTail (run.drop (n + 1) ++ tail0) with
    | some (nm, argsTxt, rest) =>
      some (⟨String.mk nm, String.mk (pyStrip (run.take (n + 1))),
             String.mk (pyStrip argsTxt)⟩, rest)
    | none => tryLens run tail0 n

/-- Backtracking over the length of the `\s+` separator between the macro
token and the return-type group (their classes overlap on whitespace, so the
engine shortens `\s+` when no group boundary works): try `\s+` of length `a`
first (longest), then shorter.  `sp` is the maximal whitespace run after the
macro token, `rest0` the text after it. -/
def tryA (sp rest0 : List Char) : Nat → Option (ExportRec × List Char)
  | 0 => none
  | a + 1 =>
    let rem := sp.drop (a + 1) ++ rest0
    let run := rem.takeWhile isG1Char
    match tryLens run (rem.dropWhile isG1Char) run.length with
    | some res => some res
    | none => tryA sp rest0 a

/-- Attempt to match `func_pattern`
(`^\s*{escaped_macro}\s+([\w\s*]+)\s+(\w+)\s*\(([^)]*)\)\s*\{`, scanner.py
lines 35-38) at one `^` position; on success return the export record with
`return_type` and `args` stripped as in scanner.py lines 42-46, and the
remaining text after the match. -/
def matchFuncAt (mac s : List Char) : Option (ExportRec × List Char) :=
  match dropLit mac (s.dropWhile isPySpace) with
  | none => none
  | some s2 =>
    let sp := s2.takeWhile isPySpace
    tryA sp (s2.dropWhile isPySpace) sp.length

/-- Scan for all non-overlapping matches of `func_pattern`, left to right,
resuming after the end of each match; `atStart` records whether the current
position is a `^` position (start of text or just after a newline).  The fuel
argument bounds the number of steps; each step either consumes one character
or an entire (nonempty) match, so fuel `length + 1` is exact. -/
def findAllGo (mac : List Char) : Nat → List Char → Bool → List ExportRec
  | 0, _, _ => []
  | fuel + 1, s, atStart =>
    match (if atStart then matchFuncAt mac s else none) with
    | some (r, rest) => r :: findAllGo mac fuel rest false
    | none =>
      match s with
      | [] => []
      | c :: rest => findAllGo mac fuel rest (c = '\n')

/-- Embedding of `func_pattern.findall(source_code)` together with the
record-building loop of scanner.py lines 41-46. -/
def funcFindAll (mac s : List Char) : List ExportRec :=
  findAllGo mac (s.length + 1) s true

/-! ## ExportScanner: command line, int conversion, pipeline -/

/-- Parsed command-line arguments of scanner.py (lines 9-16).  `version` is
held as the raw string: argparse applies no `type=` conversion, so
`int(args.version)` only happens later, at report construction. -/
structure ScanArgs where
  version : String
  source : String
  out : String
  verbose : Bool
deriving DecidableEq

/-- Model of argparse's option scan for the four declared options: each
`--name value` pair (in any order) fills a slot, `--verbose` is a flag, any
other token or a missing required option is a parse failure (argparse prints
usage to standard error and exits with code 2). -/
def parseArgsGo : List String → Option String → Option String → Option String →
    Bool → Option ScanArgs
  | [], some v, some s, some o, vb => some ⟨v, s, o, vb⟩
  | [], _, _, _, _ => none
  | "--version" :: x :: rest, _, s, o, vb => parseArgsGo rest (some x) s o vb
  | "--source" :: x :: rest, v, _, o, vb => parseArgsGo rest v (some x) o vb
  | "--out" :: x :: rest, v, s, _, vb => parseArgsGo rest v s (some x) vb
  | "--verbose" :: rest, v, s, o, _ => parseArgsGo rest v s o true
  | _ :: _, _, _, _, _ => none

/-- Embedding of `parser.parse_args()`: `none` is an argument-parsing
failure. -/
def parseArgs (argv : List String) : Option ScanArgs :=
  parseArgsGo argv none none none false

/-- Value of a nonempty all-digit character list, accumulator form. -/
def digitsValGo : List Char → Nat → Option Nat
  | [], acc => some acc
  | c :: cs, acc =>
    if '0' ≤ c && c ≤ '9' then digitsValGo cs (acc * 10 + (c.toNat - '0'.toNat))
    else none

/-- Value of a nonempty all-digit character list. -/
def digitsVal : List Char → Option Nat
  | [] => none
  | l => digitsValGo l 0

/-- Model of Python's built-in `int(str)` on decimal forms: optional
surrounding whitespace, optional sign, one or more digits; `none` models the
`ValueError` raised otherwise (digit-group underscores are not modelled). -/
def pythonInt (s : String) : Option Int :=
  match pyStrip s.data with
  | '-' :: ds => (digitsVal ds).map (fun n => -(Int.ofNat n))
  | '+' :: ds => (digitsVal ds).map Int.ofNat
  | ds => (digitsVal ds).map Int.ofNat

/-- The scan report assembled in scanner.py lines 48-53 and serialized with
`json.dump`. -/
structure Report where
  schema_version : Int
  source : String
  timestamp : String
  exported_functions : List ExportRec
deriving DecidableEq

/-- Observable side effects of one ExportScanner run, in order. -/
inductive Effect where
  | readSource (path : String)
  | writeOut (path : String) (content : Report)
  | printLine (line : String)
deriving DecidableEq

/-- Terminal outcome of one ExportScanner run. -/
inductive ScanOutcome where
  | usageError
  | sourceReadError
  | macroError (msg : String)
  | versionError
  | ok (rep : Report)
deriving DecidableEq

/-- Process exit code of each outcome: argparse exits with 2, an uncaught
Python exception exits with 1, success with 0. -/
def exitCode : ScanOutcome → Nat
  | .usageError => 2
  | .sourceReadError => 1
  | .macroError _ => 1
  | .versionError => 1
  | .ok _ => 0

/-- Embedding of the whole of scanner.py as a function of the argument
vector, the file system (path to contents) and the preformatted timestamp
(the script computes the timestamp first; nothing branches on it).  Returns
the outcome and the ordered list of effects: argument parsing precedes the
source read; the macro search and the function scan precede the
`int(args.version)` conversion inside the report dict; the report write
precedes the verbose prints. -/
def runScanner (argv : List String) (fileSys : String → Option String)
    (timestamp : String) : ScanOutcome × List Effect :=
  match parseArgs argv with
  | none => (.usageError, [])
  | some a =>
    match fileSys a.source with
    | none => (.sourceReadError, [])
    | some src =>
      match macroSearch src.data with
      | none =>
        (.macroError "No Windows dllexport macro found in source file",
         [.readSource a.source])
      | some mac =>
        let funcs := funcFindAll mac src.data
        match pythonInt a.version with
        | none => (.versionError, [.readSource a.source])
        | some v =>
          let rep : Report := ⟨v, a.source, timestamp, funcs⟩
          (.ok rep,
           [.readSource a.source, .writeOut a.out rep] ++
             (if a.verbose then
               [.printLine ("Writing " ++ toString funcs.length ++
                  " functions to " ++ a.out),
                .printLine ("[VERBOSE] File scanned for functions: " ++ a.source)]
              else []))

/-- Apply a list of effects to an output-file store (path to report);
`writeOut` overwrites, the other effects do not touch files. -/
def applyEffects : List Effect → (String → Option Report) → String → Option Report
  | [], st => st
  | .writeOut p r :: es, st => applyEffects es (fun q => if q = p then some r else st q)
  | .readSource _ :: es, st => applyEffects es st
  | .printLine _ :: es, st => applyEffects es st

/-- Whether an effect writes a file. -/
def isWriteEffect : Effect → Bool
  | .writeOut _ _ => true
  | _ => false

/-! ## Concrete inputs used by the claims -/

/-- The round-trip source file of the specification: the macro definition and
one matching function definition. -/
def c2Src : String :=
  "#define MYAPI __declspec(dllexport)\nMYAPI int Foo(int x) \x7b\n"

/-- A source file with no `__declspec(dllexport)` macro. -/
def c3Src : String := "int main() \x7b\x7d\n"

/-- A source file whose one function definition spans two lines before the
closing parenthesis of the argument list. -/
def c4Src : String :=
  "#define MYAPI __declspec(dllexport)\nMYAPI int Foo(int a,\n int b) \x7b\n"

/-- A source file with the macro and zero matching function definitions. -/
def c7Src : String := "#define MYAPI __declspec(dllexport)\n"

/-- A one-file file system mapping `lib.c` to the given contents. -/
def oneFileFs (contents : String) : String → Option String :=
  fun p => if p = "lib.c" then some contents else none

/-! ## ConfigLookup theorems -/

/-- C1: for every configuration object and every label list whose first label
is not a key of the object, ConfigLookup exits with code 1 and prints
nothing, and the result does not depend on the later labels at all (they are
never examined, even when present in the object). -/
theorem C1_first_label_missing (config : List (String × JsonVal)) (l : String)
    (rest rest2 : List String) (h : lookupKey config l = none) :
    configRun config (l :: rest) = ([], 1) ∧
    configRun config (l :: rest) = configRun config (l :: rest2) := by
  simp [configRun, h]

/-- Witness for C1 at the specification's own scenario: configuration
`{"a": 1, "b": 2}` and labels `["z", "a"]`; the tool exits 1 and prints
nothing although `"a"` is present. -/
theorem C1_first_label_missing_witness :
    lookupKey [("a", JsonVal.num 1), ("b", JsonVal.num 2)] "z" = none ∧
    configRun [("a", JsonVal.num 1), ("b", JsonVal.num 2)] ["z", "a"] = ([], 1) :=
  ⟨rfl,
   (C1_first_label_missing [("a", JsonVal.num 1), ("b", JsonVal.num 2)] "z"
      ["a"] [] rfl).1⟩

/-- C6 counterexample: the claim says the printed text is the value's native
JSON text representation; but for configuration `{"a": true}` and labels
`["a"]` the code prints Python's `True`, which is not the JSON text `true`. -/
theorem C6_prints_python_str_counterexample :
    configRun [("a", JsonVal.bool true)] ["a"] = (["True"], 0) ∧
    (configRun [("a", JsonVal.bool true)] ["a"]).1 ≠
      [jsonText (JsonVal.bool true)] := by
  constructor
  · simp [configRun, lookupKey, pyStr, pyRepr]
  · simp [configRun, lookupKey, pyStr, pyRepr, jsonText]

/-- C6 amended: when the first label is a key of the object, ConfigLookup
prints the Python `str` of the associated value (which coincides with the
JSON text for integer values, though not for booleans, strings or null) and
exits with code 0. -/
theorem C6_first_label_present (config : List (String × JsonVal)) (l : String)
    (rest : List String) (v : JsonVal) (h : lookupKey config l = some v) :
    configRun config (l :: rest) = ([pyStr v], 0) := by
  simp [configRun, h]

/-- Witness for C6 at the specification's scenario: configuration
`{"a": 1, "b": 2}` and labels `["b"]` print `2` and exit 0. -/
theorem C6_first_label_present_witness :
    lookupKey [("a", JsonVal.num 1), ("b", JsonVal.num 2)] "b" =
      some (JsonVal.num 2) ∧
    configRun [("a", JsonVal.num 1), ("b", JsonVal.num 2)] ["b"] = (["2"], 0) := by
  refine ⟨rfl, ?_⟩
  have h := C6_first_label_present [("a", JsonVal.num 1), ("b", JsonVal.num 2)]
    "b" [] (JsonVal.num 2) rfl
  simpa [pyStr, pyRepr] using h

/-- C10: with zero labels and a successfully parsed configuration, the loop
body never runs: ConfigLookup prints nothing and exits with code 0. -/
theorem C10_no_labels (config : List (String × JsonVal)) :
    configRun config [] = ([], 0) := rfl

/-! ## ExportScanner theorems -/

/-- Membership in a stripped list implies membership in the original list. -/
theorem mem_pyStrip {a : Char} {l : List Char} (h : a ∈ pyStrip l) : a ∈ l := by
  unfold pyStrip at h
  rw [List.mem_reverse] at h
  have h2 := (List.dropWhile_sublist _).subset h
  rw [List.mem_reverse] at h2
  exact (List.dropWhile_sublist _).subset h2

/-- The close stage passes name and argument text through unchanged. -/
theorem matchTailClose_spec {nm ar s6 nm2 ar2 rest : List Char}
    (h : matchTailClose nm ar s6 = some (nm2, ar2, rest)) :
    nm2 = nm ∧ ar2 = ar := by
  unfold matchTailClose at h
  split at h
  · split at h
    · have hh := Option.some.inj h
      exact ⟨(congrArg (fun q => q.1) hh).symm,
             (congrArg (fun q => q.2.1) hh).symm⟩
    · cases h
  · cases h

/-- The paren stage passes the name through and captures an argument text
containing no closing parenthesis. -/
theorem matchTailParen_spec {nm s4 nm2 ar2 rest : List Char}
    (h : matchTailParen nm s4 = some (nm2, ar2, rest)) :
    nm2 = nm ∧ ')' ∉ ar2 := by
  unfold matchTailParen at h
  split at h
  · obtain ⟨h1, h2⟩ := matchTailClose_spec h
    refine ⟨h1, ?_⟩
    rw [h2]
    intro hmem
    have := List.mem_takeWhile_imp hmem
    simp at this
  · cases h

/-- The name stage captures a nonempty all-word-character name and an
argument text containing no closing parenthesis. -/
theorem matchTailName_spec {s2 nm2 ar2 rest : List Char}
    (h : matchTailName s2 = some (nm2, ar2, rest)) :
    nm2 ≠ [] ∧ (∀ c ∈ nm2, isWordChar c) ∧ ')' ∉ ar2 := by
  unfold matchTailName at h
  split at h
  · cases h
  next hne =>
    obtain ⟨h1, h2⟩ := matchTailParen_spec h
    subst h1
    exact ⟨hne, fun c hc => List.mem_takeWhile_imp hc, h2⟩

/-- The tail matcher captures a nonempty all-word-character name and an
argument text containing no closing parenthesis. -/
theorem matchTail_spec {s nm2 ar2 rest : List Char}
    (h : matchTail s = some (nm2, ar2, rest)) :
    nm2 ≠ [] ∧ (∀ c ∈ nm2, isWordChar c) ∧ ')' ∉ ar2 := by
  unfold matchTail at h
  split at h
  · cases h
  · split at h
    · exact matchTailName_spec h
    · cases h

/-- Every record produced by the return-type backtracking has a nonempty
all-word-character name and an argument text free of closing parentheses. -/
theorem tryLens_spec (run tail0 : List Char) :
    ∀ n r rest, tryLens run tail0 n = some (r, rest) →
      r.name.data ≠ [] ∧ (∀ c ∈ r.name.data, isWordChar c) ∧
        ')' ∉ r.args.data := by
  intro n
  induction n with
  | zero => intro r rest h; simp [tryLens] at h
  | succ k ih =>
    intro r rest h
    simp only [tryLens] at h
    split at h
    next nm argsTxt rest2 heq =>
      obtain ⟨h1, h2, h3⟩ := matchTail_spec heq
      have hh := Option.some.inj h
      have hr := congrArg (fun q => q.1) hh
      subst hr
      exact ⟨h1, h2, fun hm => h3 (mem_pyStrip hm)⟩
    next heq => exact ih r rest h

/-- Every record produced by the whitespace backtracking has a nonempty
all-word-character name and an argument text free of closing parentheses. -/
theorem tryA_spec (sp rest0 : List Char) :
    ∀ n r rest, tryA sp rest0 n = some (r, rest) →
      r.name.data ≠ [] ∧ (∀ c ∈ r.name.data, isWordChar c) ∧
        ')' ∉ r.args.data := by
  intro n
  induction n with
  | zero => intro r rest h; simp [tryA] at h
  | succ k ih =>
    intro r rest h
    simp only [tryA] at h
    split at h
    next res heq =>
      have hres := Option.some.inj h
      subst hres
      exact tryLens_spec _ _ _ _ _ heq
    next heq => exact ih r rest h

/-- Every record produced by a single `func_pattern` match has a nonempty
all-word-character name and an argument text free of closing parentheses. -/
theorem matchFuncAt_spec {mac s : List Char} {r : ExportRec} {rest : List Char}
    (h : matchFuncAt mac s = some (r, rest)) :
    r.name.data ≠ [] ∧ (∀ c ∈ r.name.data, isWordChar c) ∧
      ')' ∉ r.args.data := by
  unfold matchFuncAt at h
  split at h
  · cases h
  · exact tryA_spec _ _ _ _ _ h

/-- Every record produced by the full scan has a nonempty all-word-character
name and an argument text free of closing parentheses. -/
theorem findAllGo_spec (mac : List Char) :
    ∀ fuel s atStart r, r ∈ findAllGo mac fuel s atStart →
      r.name.data ≠ [] ∧ (∀ c ∈ r.name.data, isWordChar c) ∧
        ')' ∉ r.args.data := by
  intro fuel
  induction fuel with
  | zero => intro s b r h; simp [findAllGo] at h
  | succ k ih =>
    intro s b r h
    simp only [findAllGo] at h
    split at h
    next r0 rest heq =>
      rcases List.mem_cons.mp h with h0 | h1
      · subst h0
        cases b with
        | false => simp at heq
        | true => exact matchFuncAt_spec (by simpa using heq)
      · exact ih rest false r h1
    next heq =>
      cases s with
      | nil => simp at h
      | cons c rest => exact ih rest (c = '\n') r h

/-- C4 counterexample: the claim states that a function definition spanning
multiple lines before the closing parenthesis of its argument list is never
captured; but `[^)]*` and `\s` match newlines, so the two-line definition in
`c4Src` is captured, with the newline inside the recorded argument text. -/
theorem C4_multiline_captured_counterexample :
    (⟨"Foo", "int", "int a,\n int b"⟩ : ExportRec) ∈
      funcFindAll "MYAPI".data c4Src.data ∧
    '\n' ∈ ("int a,\n int b" : String).data := by decide

/-- C4 amended: the function-signature matcher only captures spans in which
the macro token, return type, function name, argument list and opening brace
form one matched span whose function name is a nonempty identifier and whose
argument text contains no closing parenthesis; but since the whitespace and
argument classes match newlines, such a span may extend over several lines,
so a definition spanning multiple lines before the argument list's closing
parenthesis CAN be captured. -/
theorem C4_single_span (mac s : List Char) :
    ∀ r ∈ funcFindAll mac s,
      r.name.data ≠ [] ∧ (∀ c ∈ r.name.data, isWordChar c) ∧
        ')' ∉ r.args.data :=
  fun r hr => findAllGo_spec mac (s.length + 1) s true r hr

/-- Witness for C4 amended at the two-line definition of `c4Src`: the
captured record's argument text contains no closing parenthesis. -/
theorem C4_single_span_witness :
    (⟨"Foo", "int", "int a,\n int b"⟩ : ExportRec) ∈
      funcFindAll "MYAPI".data c4Src.data ∧
    ')' ∉ ("int a,\n int b" : String).data := by
  refine ⟨by decide, ?_⟩
  exact (C4_single_span "MYAPI".data c4Src.data
    ⟨"Foo", "int", "int a,\n int b"⟩ (by decide)).2.2

/-- C2: for the round-trip source file (macro definition plus the single
matching definition `MYAPI int Foo(int x) {`), the run succeeds and the
report's `exported_functions` is exactly the one-element sequence containing
`{name: "Foo", return_type: "int", args: "int x"}`. -/
theorem C2_round_trip (t : String) :
    runScanner ["--version", "1", "--source", "lib.c", "--out", "report.json"]
        (oneFileFs c2Src) t =
      (ScanOutcome.ok ⟨1, "lib.c", t, [⟨"Foo", "int", "int x"⟩]⟩,
       [Effect.readSource "lib.c",
        Effect.writeOut "report.json" ⟨1, "lib.c", t, [⟨"Foo", "int", "int x"⟩]⟩]) := rfl

/-- C3: for every invocation whose source text contains no line matching the
macro pattern, the run fails with the script's explicit descriptive
RuntimeError message and a non-zero exit code, and the only effect is the
source read: the output file is never written. -/
theorem C3_no_dllexport (argv : List String) (fileSys : String → Option String)
    (t : String) (a : ScanArgs) (src : String)
    (hp : parseArgs argv = some a) (hf : fileSys a.source = some src)
    (hm : macroSearch src.data = none) :
    (runScanner argv fileSys t).1 =
      ScanOutcome.macroError "No Windows dllexport macro found in source file" ∧
    exitCode (runScanner argv fileSys t).1 = 1 ∧
    (runScanner argv fileSys t).2 = [Effect.readSource a.source] ∧
    ∀ e ∈ (runScanner argv fileSys t).2, isWriteEffect e = false := by
  refine ⟨?_, ?_, ?_, ?_⟩ <;>
    simp [runScanner, hp, hf, hm, exitCode, isWriteEffect]

/-- Witness for C3: a source file with no `__declspec(dllexport)` macro makes
the run fail with the descriptive error before any write. -/
theorem C3_no_dllexport_witness :
    parseArgs ["--version", "1", "--source", "lib.c", "--out", "report.json"] =
      some ⟨"1", "lib.c", "report.json", false⟩ ∧
    macroSearch c3Src.data = none ∧
    (runScanner ["--version", "1", "--source", "lib.c", "--out", "report.json"]
        (oneFileFs c3Src) "T").1 =
      ScanOutcome.macroError "No Windows dllexport macro found in source file" := by
  refine ⟨rfl, by decide, ?_⟩
  exact (C3_no_dllexport
    ["--version", "1", "--source", "lib.c", "--out", "report.json"]
    (oneFileFs c3Src) "T"
    ⟨"1", "lib.c", "report.json", false⟩ c3Src rfl rfl (by decide)).1

/-- C5 counterexample: with `--version abc` (not a valid integer) the claim
says the run fails at argument parsing before any source file is read; but
argument parsing succeeds (argparse applies no integer conversion), the
source IS read, and the failure is the later uncaught `int()` ValueError. -/
theorem C5_version_counterexample :
    parseArgs ["--version", "abc", "--source", "lib.c", "--out", "o.json"] =
      some ⟨"abc", "lib.c", "o.json", false⟩ ∧
    (runScanner ["--version", "abc", "--source", "lib.c", "--out", "o.json"]
        (oneFileFs c2Src) "T").1 = ScanOutcome.versionError ∧
    Effect.readSource "lib.c" ∈
      (runScanner ["--version", "abc", "--source", "lib.c", "--out", "o.json"]
        (oneFileFs c2Src) "T").2 := by decide

/-- C5 amended: an invocation with missing or unknown CLI arguments fails at
argument parsing (usage message to standard error, exit code 2) before any
source read or output write; but an invocation whose `--version` value is not
a valid integer passes argument parsing and fails only at report
construction, with an uncaught ValueError (exit code 1), after the source
file has been read though still before any output is written. -/
theorem C5_failure_stages (argv : List String)
    (fileSys : String → Option String) (t : String) :
    (parseArgs argv = none →
      runScanner argv fileSys t = (ScanOutcome.usageError, []) ∧
      exitCode ScanOutcome.usageError = 2) ∧
    (∀ a src mac, parseArgs argv = some a → fileSys a.source = some src →
      macroSearch src.data = some mac → pythonInt a.version = none →
      (runScanner argv fileSys t).1 = ScanOutcome.versionError ∧
      (runScanner argv fileSys t).2 = [Effect.readSource a.source] ∧
      exitCode ScanOutcome.versionError = 1) := by
  constructor
  · intro hp
    exact ⟨by simp [runScanner, hp], rfl⟩
  · intro a src mac hp hf hm hv
    refine ⟨?_, ?_, rfl⟩ <;> simp [runScanner, hp, hf, hm, hv]

/-- Witness for C5 amended: a missing-argument invocation stops at parsing
with no effects, and a non-integer `--version` invocation reads the source
and writes nothing. -/
theorem C5_failure_stages_witness :
    runScanner ["--source", "lib.c"] (oneFileFs c2Src) "T" =
      (ScanOutcome.usageError, []) ∧
    (runScanner ["--version", "abc", "--source", "lib.c", "--out", "o.json"]
        (oneFileFs c2Src) "T").2 = [Effect.readSource "lib.c"] := by
  refine ⟨((C5_failure_stages ["--source", "lib.c"] (oneFileFs c2Src) "T").1
    rfl).1, ?_⟩
  exact ((C5_failure_stages ["--version", "abc", "--source", "lib.c", "--out",
    "o.json"] (oneFileFs c2Src) "T").2 ⟨"abc", "lib.c", "o.json", false⟩ c2Src
    "MYAPI".data rfl rfl (by decide) (by decide)).2.1

/-- C7: a source file containing the macro but zero matching function
definitions yields a successful run (exit code 0) that writes a report whose
`exported_functions` is the empty sequence. -/
theorem C7_macro_zero_functions (argv : List String)
    (fileSys : String → Option String) (t : String) (a : ScanArgs)
    (src : String) (mac : List Char) (v : Int)
    (hp : parseArgs argv = some a) (hf : fileSys a.source = some src)
    (hm : macroSearch src.data = some mac) (hv : pythonInt a.version = some v)
    (hz : funcFindAll mac src.data = []) :
    (runScanner argv fileSys t).1 = ScanOutcome.ok ⟨v, a.source, t, []⟩ ∧
    Effect.writeOut a.out ⟨v, a.source, t, []⟩ ∈ (runScanner argv fileSys t).2 ∧
    exitCode (runScanner argv fileSys t).1 = 0 := by
  refine ⟨?_, ?_, ?_⟩ <;> simp [runScanner, hp, hf, hm, hv, hz, exitCode]

/-- Witness for C7: a source file consisting of the macro line alone produces
`exported_functions = []` with a successful write. -/
theorem C7_macro_zero_functions_witness :
    funcFindAll "MYAPI".data c7Src.data = [] ∧
    (runScanner ["--version", "1", "--source", "lib.c", "--out", "o.json"]
        (oneFileFs c7Src) "T").1 = ScanOutcome.ok ⟨1, "lib.c", "T", []⟩ := by
  refine ⟨by decide, ?_⟩
  exact (C7_macro_zero_functions
    ["--version", "1", "--source", "lib.c", "--out", "o.json"]
    (oneFileFs c7Src) "T"
    ⟨"1", "lib.c", "o.json", false⟩ c7Src "MYAPI".data 1 rfl rfl (by decide)
    (by decide) (by decide)).1

/-- Characterization of a successful run: it passed argument parsing, read
the source, found a macro, converted the version, and the report is the
schema version, source path, timestamp and scan result. -/
theorem runScanner_ok_inv (argv : List String) (fileSys : String → Option String)
    (t : String) (rep : Report)
    (h : (runScanner argv fileSys t).1 = ScanOutcome.ok rep) :
    ∃ a src mac v, parseArgs argv = some a ∧ fileSys a.source = some src ∧
      macroSearch src.data = some mac ∧ pythonInt a.version = some v ∧
      rep = ⟨v, a.source, t, funcFindAll mac src.data⟩ := by
  unfold runScanner at h
  cases hp : parseArgs argv with
  | none => simp [hp] at h
  | some a =>
    simp only [hp] at h
    cases hf : fileSys a.source with
    | none => simp [hf] at h
    | some src =>
      simp only [hf] at h
      cases hm : macroSearch src.data with
      | none => simp [hm] at h
      | some mac =>
        simp only [hm] at h
        cases hv : pythonInt a.version with
        | none => simp [hv] at h
        | some v =>
          simp only [hv] at h
          have h2 : ScanOutcome.ok
              (⟨v, a.source, t, funcFindAll mac src.data⟩ : Report) =
              ScanOutcome.ok rep := h
          exact ⟨a, src, mac, v, rfl, hf, hm, hv,
            (ScanOutcome.ok.inj h2).symm⟩

/-- C8: whenever the run writes a report, its `schema_version` field equals
the integer value of the `--version` argument, whatever that integer is
(zero and negative included). -/
theorem C8_schema_version_eq (argv : List String)
    (fileSys : String → Option String) (t : String) (a : ScanArgs) (v : Int)
    (rep : Report) (hp : parseArgs argv = some a)
    (hv : pythonInt a.version = some v)
    (hok : (runScanner argv fileSys t).1 = ScanOutcome.ok rep) :
    rep.schema_version = v := by
  obtain ⟨a1, src, mac, v1, hp1, hf1, hm1, hv1, hrep⟩ :=
    runScanner_ok_inv argv fileSys t rep hok
  rw [hp] at hp1
  injection hp1 with e1
  subst e1
  rw [hv] at hv1
  injection hv1 with e2
  subst e2
  rw [hrep]

/-- Witness for C8 at the negative version `-7`. -/
theorem C8_schema_version_eq_witness :
    pythonInt "-7" = some (-7) ∧
    (runScanner ["--version", "-7", "--source", "lib.c", "--out", "o.json"]
        (oneFileFs c7Src) "T").1 = ScanOutcome.ok ⟨-7, "lib.c", "T", []⟩ ∧
    (⟨-7, "lib.c", "T", []⟩ : Report).schema_version = -7 := by
  refine ⟨by decide, by decide, ?_⟩
  exact C8_schema_version_eq
    ["--version", "-7", "--source", "lib.c", "--out", "o.json"]
    (oneFileFs c7Src) "T" ⟨"-7", "lib.c", "o.json", false⟩ (-7)
    ⟨-7, "lib.c", "T", []⟩ rfl (by decide) (by decide)

/-- C9: two successful runs on the same argument vector and file system
(differing only in their timestamps) produce reports with identical
`exported_functions`, and running the second after the first leaves the
second run's report at the output path: the write overwrites. -/
theorem C9_deterministic_overwrite (argv : List String)
    (fileSys : String → Option String) (t1 t2 : String)
    (store : String → Option Report) (a : ScanArgs) (r1 r2 : Report)
    (hp : parseArgs argv = some a)
    (h1 : (runScanner argv fileSys t1).1 = ScanOutcome.ok r1)
    (h2 : (runScanner argv fileSys t2).1 = ScanOutcome.ok r2) :
    r1.exported_functions = r2.exported_functions ∧
    applyEffects ((runScanner argv fileSys t1).2 ++ (runScanner argv fileSys t2).2)
      store a.out = some r2 := by
  obtain ⟨a1, src1, mac1, v1, hp1, hf1, hm1, hv1, hr1⟩ :=
    runScanner_ok_inv argv fileSys t1 r1 h1
  obtain ⟨a2, src2, mac2, v2, hp2, hf2, hm2, hv2, hr2⟩ :=
    runScanner_ok_inv argv fileSys t2 r2 h2
  rw [hp] at hp1 hp2
  injection hp1 with e1
  injection hp2 with e2
  subst e1
  subst e2
  rw [hf1] at hf2
  injection hf2 with e3
  subst e3
  rw [hm1] at hm2
  injection hm2 with e4
  subst e4
  rw [hv1] at hv2
  injection hv2 with e5
  subst e5
  subst hr1
  subst hr2
  refine ⟨rfl, ?_⟩
  simp only [runScanner, hp, hf1, hm1, hv1]
  cases hvb : a.verbose <;> simp [applyEffects, hvb]

/-- Witness for C9: two runs over the round-trip source with different
timestamps agree on `exported_functions`, and the second write wins. -/
theorem C9_deterministic_overwrite_witness :
    (⟨1, "lib.c", "T1", [⟨"Foo", "int", "int x"⟩]⟩ : Report).exported_functions =
      (⟨1, "lib.c", "T2", [⟨"Foo", "int", "int x"⟩]⟩ : Report).exported_functions ∧
    applyEffects
      ((runScanner ["--version", "1", "--source", "lib.c", "--out", "report.json"]
          (oneFileFs c2Src) "T1").2 ++
       (runScanner ["--version", "1", "--source", "lib.c", "--out", "report.json"]
          (oneFileFs c2Src) "T2").2)
      (fun _ => none) "report.json" =
      some ⟨1, "lib.c", "T2", [⟨"Foo", "int", "int x"⟩]⟩ :=
  C9_deterministic_overwrite
    ["--version", "1", "--source", "lib.c", "--out", "report.json"]
    (oneFileFs c2Src) "T1" "T2" (fun _ => none)
    ⟨"1", "lib.c", "report.json", false⟩
    ⟨1, "lib.c", "T1", [⟨"Foo", "int", "int x"⟩]⟩
    ⟨1, "lib.c", "T2", [⟨"Foo", "int", "int x"⟩]⟩
    rfl (by decide) (by decide)

end DllScan
